import Mathlib

/-!
# Verification of the OpenPGP ECDH key-wrapping core (g10/ecdh.c)

A shallow embedding of the ECDH encrypt/decrypt pipeline of GnuPG's
`g10/ecdh.c`: default KEK-parameter selection, KEK-parameter decoding,
shared-secret extraction, KDF-parameter assembly, KEK derivation and the
AES-key-wrap glue, together with theorems settling the specification
claims about this code.

Modelling conventions:

* A gcry MPI is represented by its natural unsigned big-endian octet
  serialization, a `List ℕ` with no leading zero octet (the form
  `gcry_mpi_print (GCRYMPI_FMT_USG, ...)` emits and
  `gcry_mpi_scan (GCRYMPI_FMT_USG, ...)` normalizes to).  `mpiNbits`
  is `gcry_mpi_get_nbits` on that representation, and `canonMpi` is the
  normalization `gcry_mpi_scan` performs (dropping leading zero octets).
* Machine bytes are `ℕ` values; byte-store truncation (`data_buf[0] = n`)
  is modelled with `% 256`.
* A failed C `assert` aborts the process; it is modelled as the distinct
  error value `EcdhErr.assertFailed`, never as a gpg error code.
* libgcrypt's message digests and its `GCRY_CIPHER_MODE_AESWRAP` cipher
  mode, as well as the iobuf size-body writer and `pubkey_nbits`, are not
  part of this repository's sources; they are modelled from the spec's
  external-interface contract (spec sections 4.3, 6, 7 and the glossary)
  as parameters with exactly the properties the spec states.
-/

/-- Error outcomes of the ECDH core.  `badPubkey`, `badMpi`, `badKey`
correspond to `GPG_ERR_BAD_PUBKEY`, `GPG_ERR_BAD_MPI`, `GPG_ERR_BAD_KEY`;
`invLength` to a backend length error; `cryptoErr` to an unexpected
backend failure (e.g. a failing MPI export); `assertFailed` to an aborted
C `assert`. -/
inductive EcdhErr where
  | badPubkey
  | badMpi
  | badKey
  | invLength
  | cryptoErr
  | assertFailed
  deriving DecidableEq, Repr

/-- `gcry_mpi_scan (GCRYMPI_FMT_USG, ...)`: reading an unsigned big-endian
octet string as an MPI drops leading zero octets. -/
def canonMpi (bs : List ℕ) : List ℕ := bs.dropWhile (fun b => b == 0)

/-- A byte list is in canonical MPI form (what `gcry_mpi_print` produces):
no leading zero octet. -/
def Canonical (bs : List ℕ) : Prop := canonMpi bs = bs

instance (bs : List ℕ) : Decidable (Canonical bs) := by
  unfold Canonical; infer_instance

/-- Bit-length recursion over an explicit fuel argument (the fuel keeps
the recursion structural, so that the kernel evaluates it). -/
def bitLenAux : ℕ → ℕ → ℕ
  | 0, _ => 0
  | fuel + 1, n => if n = 0 then 0 else bitLenAux fuel (n / 2) + 1

/-- The bit length of a value: 0 for 0, and `floor (log2 b) + 1`
otherwise.  `b` itself is always enough fuel. -/
def bitLen (b : ℕ) : ℕ := bitLenAux b b

/-- `gcry_mpi_get_nbits` on the canonical serialization: eight bits per
octet after the first, plus the bit length of the leading octet. -/
def mpiNbits : List ℕ → ℕ
  | [] => 0
  | b :: bs => 8 * bs.length + bitLen b

/-- The table of default KEK parameters (`kek_params_table` in ecdh.c),
`(qbits, openpgp_hash_id, openpgp_cipher_id)` rows sorted by ascending
qbits: SHA-256 = 8, SHA-384 = 9, SHA-512 = 10; AES = 7, AES-256 = 9.
528 is 521 rounded to the 8-bit boundary. -/
def kek_params_table : List (ℕ × ℕ × ℕ) :=
  [(256, 8, 7), (384, 9, 9), (528, 10, 9)]

/-- The selection loop of `pk_ecdh_default_params`: walk the table from
the front and stop at the first row whose qbits are at least the caller's
qbits, or at the last row (`i+1 == DIM(kek_params_table)`). -/
def selectKekRow (qbits : ℕ) : List (ℕ × ℕ × ℕ) → ℕ × ℕ
  | [] => (0, 0)
  | [r] => (r.2.1, r.2.2)
  | r :: r' :: rest =>
    if r.1 ≥ qbits then (r.2.1, r.2.2) else selectKekRow qbits (r' :: rest)

/-- `pk_ecdh_default_params`: a 4-octet blob `03 01 hash cipher` with the
hash and cipher ids chosen from `kek_params_table`. -/
def pk_ecdh_default_params (qbits : ℕ) : List ℕ :=
  let hc := selectKekRow qbits kek_params_table
  [3, 1, hc.1, hc.2]

/-- Modelled from the spec: `iobuf_write_size_body_mpi` (iobuf layer, not
in src/), per spec section 4.3: one octet giving the length in octets of
the value, followed by the value's big-endian octets with no leading
zero.  The length octet is a machine byte, hence `% 256`. -/
def sizeBody (mpi : List ℕ) : List ℕ := (mpi.length % 256) :: mpi

/-- The checks of ecdh.c lines 160-179 on the serialized KEK-parameter
blob: expect 4 bytes `03 01 hash_alg symm_alg`, the hash being SHA-256,
SHA-384 or SHA-512 (gcry ids 8, 9, 10) and the cipher AES-128, AES-192 or
AES-256 (gcry ids 7, 8, 9); otherwise `GPG_ERR_BAD_PUBKEY`. -/
def decodeKekBlob (blob : List ℕ) : Except EcdhErr (ℕ × ℕ) :=
  if blob.length ≠ 4 ∨ blob.getD 0 0 ≠ 3 ∨ blob.getD 1 0 ≠ 1 then
    .error .badPubkey
  else
    let kdf_hash_algo := blob.getD 2 0
    let kdf_encr_algo := blob.getD 3 0
    if kdf_hash_algo ≠ 8 ∧ kdf_hash_algo ≠ 9 ∧ kdf_hash_algo ≠ 10 then
      .error .badPubkey
    else if kdf_encr_algo ≠ 7 ∧ kdf_encr_algo ≠ 8 ∧ kdf_encr_algo ≠ 9 then
      .error .badPubkey
    else
      .ok (kdf_hash_algo, kdf_encr_algo)

/-- KEK-parameter decoding as the pipeline performs it: serialize the
KEK-params MPI `pkey[2]` as size-body into the 256-byte scratch buffer,
then run the format checks. -/
def decodeKekParams (pkKek : List ℕ) : Except EcdhErr (ℕ × ℕ) :=
  decodeKekBlob ((sizeBody pkKek).take 256)

/-- The spec's well-formedness predicate for a KEK-parameter blob (spec
section 4.1): length 4, leading `03 01`, hash id in the allowed set,
cipher id in the allowed set. -/
def KekBlobOk (blob : List ℕ) : Prop :=
  blob.length = 4 ∧ blob.getD 0 0 = 3 ∧ blob.getD 1 0 = 1 ∧
    (blob.getD 2 0 = 8 ∨ blob.getD 2 0 = 9 ∨ blob.getD 2 0 = 10) ∧
    (blob.getD 3 0 = 7 ∨ blob.getD 3 0 = 8 ∨ blob.getD 3 0 = 9)

instance (blob : List ℕ) : Decidable (KekBlobOk blob) := by
  unfold KekBlobOk; infer_instance

/-- The 20 ASCII octets of the fixed string written between the KEK
params and the recipient fingerprint (four trailing spaces, no NUL). -/
def anonymousSender : List ℕ :=
  [0x41, 0x6E, 0x6F, 0x6E, 0x79, 0x6D, 0x6F, 0x75, 0x73, 0x20,
   0x53, 0x65, 0x6E, 0x64, 0x65, 0x72, 0x20, 0x20, 0x20, 0x20]

/-- The KDF-parameter assembly of ecdh.c lines 182-207: size-body of the
curve OID MPI `pkey[0]`, the octet `PUBKEY_ALGO_ECDH` (18), size-body of
the KEK-params MPI `pkey[2]`, the 20-octet sender constant, and 20 octets
of the recipient fingerprint, collected into the 256-octet scratch
buffer. -/
def buildKdfParams (pkOid pkKek fp : List ℕ) : List ℕ :=
  (sizeBody pkOid ++ [18] ++ sizeBody pkKek ++ anonymousSender
    ++ fp.take 20).take 256

/-- Shared-secret extraction, ecdh.c lines 117-139.  `bigN` is the octet
size of the public point (the allocation size), `n = (nbits+7)/8` the
curve's octet size.  `gcry_mpi_print` fails if the shared point's natural
size `m` exceeds the buffer (propagated; a `CryptoError` per spec section
7); then `assert (m > n)`, skip the one framing octet, keep `n` octets,
and zero the buffer from `n` up to `m`. -/
def extractSecretX (sharedMpi : List ℕ) (bigN n : ℕ) :
    Except EcdhErr (List ℕ) :=
  if bigN < sharedMpi.length then .error .cryptoErr
  else if sharedMpi.length ≤ n then .error .assertFailed
  else .ok ((sharedMpi.drop 1).take n
            ++ List.replicate (sharedMpi.length - n) 0)

/-- `gcry_md_get_algo_dlen` for the three admissible KDF hashes. -/
def mdLen : ℕ → ℕ
  | 8 => 32
  | 9 => 48
  | 10 => 64
  | _ => 0

/-- `gcry_cipher_get_algo_keylen` for the three admissible KEK ciphers. -/
def cipherKeylen : ℕ → ℕ
  | 7 => 16
  | 8 => 24
  | 9 => 32
  | _ => 0

/-- The KEK-derivation buffer, ecdh.c lines 209-239: hash the 4-octet
counter `00 00 00 01`, the `n` shared-secret octets and the KDF params,
then `memcpy` the full digest over the front of the secret buffer.  The
subsequent `memset (secret_x+secret_x_size, old_size-secret_x_size, 0)`
has its size and value arguments swapped: it writes zero octets, so the
octets past the digest-truncation point are left as they are. -/
def deriveKekBuffer (md : ℕ → List ℕ → List ℕ) (hashAlgo : ℕ)
    (secretX : List ℕ) (n : ℕ) (kdfParams : List ℕ) : List ℕ :=
  let digest := md hashAlgo ([0, 0, 0, 1] ++ secretX.take n ++ kdfParams)
  digest.take (mdLen hashAlgo) ++ secretX.drop (mdLen hashAlgo)

/-- Flip bit `i` of a byte string: XOR octet `i / 8` with `2 ^ (i % 8)`. -/
def flipBit (i : ℕ) (bs : List ℕ) : List ℕ :=
  bs.set (i / 8) ((bs.getD (i / 8) 0) ^^^ (2 ^ (i % 8)))

/-- Modelled from the spec: the crypto backend's AES Key Wrap, consumed
through `gcry_cipher` in `GCRY_CIPHER_MODE_AESWRAP` (libgcrypt, not in
src/).  Spec section 6 lists `aes_keywrap`/`aes_keyunwrap` as consumed
interfaces; the glossary states the contract: a deterministic
authenticated wrap that expands the plaintext by 8 octets and detects
tampering on unwrap, the integrity failure being reported as `BadKey`
(spec section 7). -/
structure WrapBackend where
  wrapE : List ℕ → List ℕ → Except EcdhErr (List ℕ)
  unwrapE : List ℕ → List ℕ → Except EcdhErr (List ℕ)
  wrap : List ℕ → List ℕ → List ℕ
  wrapE_ok : ∀ k p, p.length % 8 = 0 → 16 ≤ p.length →
    wrapE k p = .ok (wrap k p)
  wrap_len : ∀ k p, p.length % 8 = 0 → 16 ≤ p.length →
    (wrap k p).length = p.length + 8
  unwrap_wrap : ∀ k p, p.length % 8 = 0 → 16 ≤ p.length →
    unwrapE k (wrap k p) = .ok p
  unwrap_tamper : ∀ k p i, p.length % 8 = 0 → 16 ≤ p.length →
    i < 8 * (p.length + 8) →
    unwrapE k (flipBit i (wrap k p)) = .error .badKey

/-- `pk_ecdh_encrypt_with_shared_point`, ecdh.c lines 98-382.  `md` is
the digest backend (`gcry_md`), `B` the AESWRAP backend, `qbits` the
curve strength returned by `pubkey_nbits` (pkglue, not in src/; spec
section 3 derives it from the public-point MPI).  MPI arguments carry
their canonical unsigned big-endian serialization. -/
def pk_ecdh_encrypt_with_shared_point (B : WrapBackend)
    (md : ℕ → List ℕ → List ℕ) (isEncrypt : Bool)
    (sharedMpi fp data pkOid pkPoint pkKek : List ℕ) (qbits : ℕ) :
    Except EcdhErr (List ℕ) :=
  let bigN := (mpiNbits pkPoint + 7) / 8
  let n := (qbits + 7) / 8
  match extractSecretX sharedMpi bigN n with
  | .error e => .error e
  | .ok secret_x =>
    match decodeKekParams pkKek with
    | .error e => .error e
    | .ok (kdf_hash_algo, kdf_encr_algo) =>
      let kdf_params := buildKdfParams pkOid pkKek fp
      -- assert (gcry_md_get_algo_dlen (kdf_hash_algo) >= 32)
      if mdLen kdf_hash_algo < 32 then .error .assertFailed
      else
      let buffer := deriveKekBuffer md kdf_hash_algo secret_x n kdf_params
      -- assert (old_size >= gcry_cipher_get_algo_keylen (kdf_encr_algo))
      if n < cipherKeylen kdf_encr_algo then .error .assertFailed
      -- assert (secret_x_size <= gcry_md_get_algo_dlen (kdf_hash_algo))
      else if mdLen kdf_hash_algo < cipherKeylen kdf_encr_algo then
        .error .assertFailed
      else
      let kek := buffer.take (cipherKeylen kdf_encr_algo)
      let data_buf_size := (mpiNbits data + 7) / 8
      if isEncrypt then
        -- assert ((data_buf_size & 7) == 0)
        if data_buf_size &&& 7 ≠ 0 then .error .assertFailed
        else
          match B.wrapE kek data with
          | .error e => .error e
          | .ok w =>
            -- data_buf[0] = data_buf_size + 8 (a machine byte), then
            -- gcry_mpi_scan over 1 + data_buf[0] octets
            let lenOctet := (data_buf_size + 8) % 256
            .ok (canonMpi (lenOctet :: w.take lenOctet))
      else
        -- assert ((data_buf_size & 7) == 1)
        if data_buf_size &&& 7 ≠ 1 then .error .assertFailed
        else if data.length ≠ data_buf_size
            ∨ data.getD 0 0 ≠ data_buf_size - 1 then
          -- "ecdh inconsistent size"
          .error .badMpi
        else
          match B.unwrapE kek (data.drop 1) with
          | .error e => .error e
          | .ok p =>
            -- data_buf_size -= 8; gcry_mpi_scan (in, data_buf_size)
            .ok (canonMpi (p.take (data.getD 0 0 - 8)))

/-- `pk_ecdh_decrypt`, ecdh.c lines 479-488: a null encrypted-data MPI is
rejected with `GPG_ERR_BAD_MPI`; otherwise decryption is delegated to
`pk_ecdh_encrypt_with_shared_point` with `is_encrypt = 0`. -/
def pk_ecdh_decrypt (B : WrapBackend) (md : ℕ → List ℕ → List ℕ)
    (sk_fp : List ℕ) (data : Option (List ℕ))
    (shared : List ℕ) (skOid skPoint skKek : List ℕ) (qbits : ℕ) :
    Except EcdhErr (List ℕ) :=
  match data with
  | none => .error .badMpi
  | some d =>
    pk_ecdh_encrypt_with_shared_point B md false shared sk_fp d
      skOid skPoint skKek qbits

/-!
## A concrete AESWRAP backend instance

A keyed checksum-then-payload wrap satisfying the spec's backend
contract: deterministic, expands by 8 octets, unwrap succeeds exactly on
wrap images and reports any single-bit tamper as `badKey`.  It serves as
the witness instantiation of `WrapBackend`.
-/

/-- Octet `m` of the payload checksum: the XOR of the payload octets at
positions congruent to `m` modulo 8. -/
def chkByte (p : List ℕ) (m : ℕ) : ℕ :=
  (List.range (p.length / 8)).foldr
    (fun c acc => (p.getD (8 * c + m) 0) ^^^ acc) 0

/-- The 8-octet keyed checksum block. -/
def toyChk (k p : List ℕ) : List ℕ :=
  (List.range 8).map (fun m => (k.getD m 0) ^^^ chkByte p m)

/-- Wrap: checksum block followed by the payload. -/
def toyWrap (k p : List ℕ) : List ℕ := toyChk k p ++ p

/-- Wrap entry point with the AESWRAP length preconditions. -/
def toyWrapE (k p : List ℕ) : Except EcdhErr (List ℕ) :=
  if p.length % 8 = 0 ∧ 16 ≤ p.length then .ok (toyWrap k p)
  else .error .invLength

/-- Unwrap: length checks, then verify the checksum block. -/
def toyUnwrapE (k c : List ℕ) : Except EcdhErr (List ℕ) :=
  if c.length % 8 = 0 ∧ 24 ≤ c.length then
    if c.take 8 = toyChk k (c.drop 8) then .ok (c.drop 8)
    else .error .badKey
  else .error .invLength

theorem length_toyChk (k p : List ℕ) : (toyChk k p).length = 8 := by
  simp [toyChk]

theorem getD_append_left' (l₁ l₂ : List ℕ) (n : ℕ) (h : n < l₁.length) :
    (l₁ ++ l₂).getD n 0 = l₁.getD n 0 := by
  rw [List.getD_eq_getElem?_getD, List.getD_eq_getElem?_getD,
    List.getElem?_append_left h]

theorem getD_append_right' (l₁ l₂ : List ℕ) (n : ℕ) (h : l₁.length ≤ n) :
    (l₁ ++ l₂).getD n 0 = l₂.getD (n - l₁.length) 0 := by
  rw [List.getD_eq_getElem?_getD, List.getD_eq_getElem?_getD,
    List.getElem?_append_right h]

theorem getD_set_self' (l : List ℕ) (j v : ℕ) (h : j < l.length) :
    (l.set j v).getD j 0 = v := by
  rw [List.getD_eq_getElem?_getD, List.getElem?_set_self h]
  rfl

theorem getD_set_ne' (l : List ℕ) (j v t : ℕ) (h : j ≠ t) :
    (l.set j v).getD t 0 = l.getD t 0 := by
  rw [List.getD_eq_getElem?_getD, List.getD_eq_getElem?_getD,
    List.getElem?_set_ne h]

theorem foldr_xor_congr (l : List ℕ) (f g : ℕ → ℕ)
    (h : ∀ c ∈ l, f c = g c) :
    l.foldr (fun c acc => (f c) ^^^ acc) 0
      = l.foldr (fun c acc => (g c) ^^^ acc) 0 := by
  induction l with
  | nil => rfl
  | cons a t ih =>
    simp only [List.foldr_cons]
    rw [h a (List.mem_cons_self a t),
      ih (fun c hc => h c (List.mem_cons_of_mem a hc))]

theorem foldr_xor_update (l : List ℕ) (f g : ℕ → ℕ) (c0 d : ℕ)
    (hmem : c0 ∈ l) (hnd : l.Nodup)
    (hagree : ∀ c ∈ l, c ≠ c0 → g c = f c)
    (hc0 : g c0 = (f c0) ^^^ d) :
    l.foldr (fun c acc => (g c) ^^^ acc) 0
      = (l.foldr (fun c acc => (f c) ^^^ acc) 0) ^^^ d := by
  induction l with
  | nil => cases hmem
  | cons a t ih =>
    simp only [List.foldr_cons]
    rcases List.mem_cons.mp hmem with h | h
    · subst h
      have ht : ∀ c ∈ t, f c = g c := by
        intro c hc
        exact (hagree c (List.mem_cons_of_mem _ hc)
          (fun he => (List.nodup_cons.mp hnd).1 (he ▸ hc))).symm
      rw [hc0, foldr_xor_congr t g f (fun c hc => (ht c hc).symm)]
      rw [Nat.xor_assoc, Nat.xor_comm d _, ← Nat.xor_assoc]
    · have hne : a ≠ c0 :=
        fun he => (List.nodup_cons.mp hnd).1 (he ▸ h)
      rw [hagree a (List.mem_cons_self a t) hne,
        ih h (List.nodup_cons.mp hnd).2
          (fun c hc hcc => hagree c (List.mem_cons_of_mem a hc) hcc)]
      rw [← Nat.xor_assoc]

theorem xor_left_cancel {a b c : ℕ} (h : a ^^^ b = a ^^^ c) : b = c := by
  have h2 := congrArg (fun z => a ^^^ z) h
  simpa [← Nat.xor_assoc, Nat.xor_self, Nat.zero_xor] using h2

theorem xor_ne_of_ne {x d : ℕ} (hd : d ≠ 0) : x ^^^ d ≠ x := by
  intro h
  apply hd
  have h2 : x ^^^ d = x ^^^ 0 := by simpa using h
  exact xor_left_cancel h2

theorem chkByte_set (p : List ℕ) (j d : ℕ) (hj : j < p.length)
    (h8 : p.length % 8 = 0) :
    chkByte (p.set j ((p.getD j 0) ^^^ d)) (j % 8)
      = (chkByte p (j % 8)) ^^^ d := by
  unfold chkByte
  rw [List.length_set]
  apply foldr_xor_update (List.range (p.length / 8))
    (fun c => p.getD (8 * c + j % 8) 0)
    (fun c => (p.set j ((p.getD j 0) ^^^ d)).getD (8 * c + j % 8) 0)
    (j / 8) d
  · exact List.mem_range.mpr
      (Nat.div_lt_div_of_lt_of_dvd (Nat.dvd_of_mod_eq_zero h8) hj)
  · exact List.nodup_range _
  · intro c _ hc
    apply getD_set_ne'
    intro he
    apply hc
    omega
  · have he : 8 * (j / 8) + j % 8 = j := by omega
    rw [he]
    exact getD_set_self' p j _ hj

theorem toyChk_getD (k p : List ℕ) (m : ℕ) (hm : m < 8) :
    (toyChk k p).getD m 0 = (k.getD m 0) ^^^ chkByte p m := by
  unfold toyChk
  rw [List.getD_eq_getElem?_getD, List.getElem?_map,
    List.getElem?_range hm]
  rfl

theorem toy_unwrap_wrap (k p : List ℕ) (h8 : p.length % 8 = 0)
    (h16 : 16 ≤ p.length) : toyUnwrapE k (toyWrap k p) = .ok p := by
  have hlc := length_toyChk k p
  have hlw : (toyWrap k p).length = 8 + p.length := by
    simp [toyWrap, hlc]
  have h1 : (toyWrap k p).take 8 = toyChk k p := List.take_left' hlc
  have h2 : (toyWrap k p).drop 8 = p := List.drop_left' hlc
  unfold toyUnwrapE
  rw [hlw, if_pos (by omega), h1, h2, if_pos rfl]

theorem toy_unwrap_tamper (k p : List ℕ) (i : ℕ)
    (h8 : p.length % 8 = 0) (h16 : 16 ≤ p.length)
    (hi : i < 8 * (p.length + 8)) :
    toyUnwrapE k (flipBit i (toyWrap k p)) = .error .badKey := by
  have hlc := length_toyChk k p
  have hdne : (2 : ℕ) ^ (i % 8) ≠ 0 :=
    Nat.pos_iff_ne_zero.mp (Nat.two_pow_pos (i % 8))
  by_cases hcase : i / 8 < 8
  · -- the flipped octet lies in the checksum block
    have hset : flipBit i (toyWrap k p)
        = (toyChk k p).set (i / 8)
            (((toyChk k p).getD (i / 8) 0) ^^^ 2 ^ (i % 8)) ++ p := by
      unfold flipBit toyWrap
      rw [getD_append_left' _ _ _ (by omega),
        List.set_append_left _ _ (by omega)]
    have hlc' : ((toyChk k p).set (i / 8)
        (((toyChk k p).getD (i / 8) 0) ^^^ 2 ^ (i % 8))).length = 8 := by
      rw [List.length_set, hlc]
    have hne : (toyChk k p).set (i / 8)
        (((toyChk k p).getD (i / 8) 0) ^^^ 2 ^ (i % 8)) ≠ toyChk k p := by
      intro he
      have h1 : ((toyChk k p).set (i / 8)
          (((toyChk k p).getD (i / 8) 0) ^^^ 2 ^ (i % 8))).getD (i / 8) 0
          = ((toyChk k p).getD (i / 8) 0) ^^^ 2 ^ (i % 8) :=
        getD_set_self' _ _ _ (by omega)
      rw [he] at h1
      exact xor_ne_of_ne hdne h1.symm
    rw [hset]
    unfold toyUnwrapE
    rw [List.length_append, hlc', List.take_left' hlc',
      List.drop_left' hlc', if_pos (by omega), if_neg hne]
  · -- the flipped octet lies in the wrapped payload
    have hj : i / 8 - 8 < p.length := by omega
    have hset : flipBit i (toyWrap k p)
        = toyChk k p ++ p.set (i / 8 - 8)
            ((p.getD (i / 8 - 8) 0) ^^^ 2 ^ (i % 8)) := by
      unfold flipBit toyWrap
      rw [getD_append_right' _ _ _ (by omega),
        List.set_append_right _ _ (by omega), hlc]
    have hlp : (p.set (i / 8 - 8)
        ((p.getD (i / 8 - 8) 0) ^^^ 2 ^ (i % 8))).length = p.length :=
      List.length_set p _ _
    have hne : toyChk k p ≠ toyChk k (p.set (i / 8 - 8)
        ((p.getD (i / 8 - 8) 0) ^^^ 2 ^ (i % 8))) := by
      intro he
      have hm : (i / 8 - 8) % 8 < 8 := Nat.mod_lt _ (by norm_num)
      have h1 := toyChk_getD k p ((i / 8 - 8) % 8) hm
      have h2 := toyChk_getD k (p.set (i / 8 - 8)
        ((p.getD (i / 8 - 8) 0) ^^^ 2 ^ (i % 8))) ((i / 8 - 8) % 8) hm
      rw [chkByte_set p (i / 8 - 8) _ hj h8, ← he, h1] at h2
      exact xor_ne_of_ne hdne (xor_left_cancel h2).symm
    rw [hset]
    unfold toyUnwrapE
    rw [List.length_append, hlc, hlp, List.take_left' hlc,
      List.drop_left' hlc, if_pos (by omega), if_neg hne]

/-- The concrete backend instance. -/
def toyBackend : WrapBackend :=
  ⟨toyWrapE, toyUnwrapE, toyWrap,
   fun _k p h8 h16 => by unfold toyWrapE; rw [if_pos ⟨h8, h16⟩],
   fun k p _h8 _h16 => by
     simp [toyWrap, length_toyChk k p, Nat.add_comm],
   toy_unwrap_wrap, toy_unwrap_tamper⟩

/-- A concrete digest backend of the right lengths (dependent on the
message through its length). -/
def toyMd (a : ℕ) (msg : List ℕ) : List ℕ :=
  (List.range (mdLen a)).map (fun i => (i + 1 + msg.length) % 256)


/-!
## Helper lemmas about the MPI model and the pipeline
-/

theorem canonMpi_cons_ne {b : ℕ} (bs : List ℕ) (hb : b ≠ 0) :
    canonMpi (b :: bs) = b :: bs := by
  unfold canonMpi
  rw [List.dropWhile_cons, if_neg (by simpa using hb)]

theorem Canonical.eq {bs : List ℕ} (h : Canonical bs) :
    canonMpi bs = bs := h

theorem Canonical.head_ne {b : ℕ} {bs : List ℕ}
    (h : Canonical (b :: bs)) : b ≠ 0 := by
  intro hb
  subst hb
  unfold Canonical canonMpi at h
  rw [List.dropWhile_cons, if_pos (by simp)] at h
  have hlen := congrArg List.length h
  have hle := (List.dropWhile_sublist (l := bs) (fun b => b == 0)).length_le
  simp at hlen
  omega

set_option maxRecDepth 4000 in
theorem bitLen_octet : ∀ b : ℕ, b < 256 → b ≠ 0 →
    1 ≤ bitLen b ∧ bitLen b ≤ 8 := by decide

theorem mpi_len_div (b : ℕ) (bs : List ℕ) (hb : b ≠ 0) (hb2 : b < 256) :
    (mpiNbits (b :: bs) + 7) / 8 = bs.length + 1 := by
  simp only [mpiNbits]
  have h2 := bitLen_octet b hb2 hb
  omega

theorem mpi_len_of_canonical {data : List ℕ} (hcd : Canonical data)
    (hd0 : data.getD 0 0 < 256) :
    (mpiNbits data + 7) / 8 = data.length := by
  cases data with
  | nil => rfl
  | cons b bs =>
    have hb : b ≠ 0 := Canonical.head_ne hcd
    have h := mpi_len_div b bs hb (by simpa using hd0)
    simpa using h

theorem and_seven_eq_mod (x : ℕ) : x &&& 7 = x % 8 := by
  have h := Nat.and_pow_two_sub_one_eq_mod x 3
  norm_num at h
  exact h

theorem extract_ok (sharedMpi : List ℕ) (bigN n : ℕ)
    (h1 : n < sharedMpi.length) (h2 : sharedMpi.length ≤ bigN) :
    extractSecretX sharedMpi bigN n
      = .ok ((sharedMpi.drop 1).take n
          ++ List.replicate (sharedMpi.length - n) 0) := by
  unfold extractSecretX
  rw [if_neg (by omega), if_neg (by omega)]

theorem decodeKek_ids {kek : List ℕ} {h c : ℕ}
    (hd : decodeKekParams kek = .ok (h, c)) :
    (h = 8 ∨ h = 9 ∨ h = 10) ∧ (c = 7 ∨ c = 8 ∨ c = 9) := by
  simp only [decodeKekParams, decodeKekBlob] at hd
  split_ifs at hd with h1 h2 h3
  injection hd with hd1
  injection hd1 with hh hc
  subst hh
  subst hc
  exact ⟨by tauto, by tauto⟩

/-- The buffer octets the key-wrap key is truncated from, in a
successful run of the pipeline. -/
def pipelineKek (md : ℕ → List ℕ → List ℕ) (h c : ℕ)
    (sharedMpi : List ℕ) (n : ℕ) (pkOid pkKek fp : List ℕ) : List ℕ :=
  (deriveKekBuffer md h
      ((sharedMpi.drop 1).take n
        ++ List.replicate (sharedMpi.length - n) 0)
      n (buildKdfParams pkOid pkKek fp)).take (cipherKeylen c)

theorem pipeline_front (B : WrapBackend) (md : ℕ → List ℕ → List ℕ)
    (isEncrypt : Bool)
    (sharedMpi fp data pkOid pkPoint pkKek : List ℕ) (qbits h c : ℕ)
    (hm1 : (qbits + 7) / 8 < sharedMpi.length)
    (hm2 : sharedMpi.length ≤ (mpiNbits pkPoint + 7) / 8)
    (hdec : decodeKekParams pkKek = .ok (h, c))
    (hkl : cipherKeylen c ≤ (qbits + 7) / 8) :
    pk_ecdh_encrypt_with_shared_point B md isEncrypt sharedMpi fp data
        pkOid pkPoint pkKek qbits
      = (let kek := pipelineKek md h c sharedMpi ((qbits + 7) / 8)
            pkOid pkKek fp
         let data_buf_size := (mpiNbits data + 7) / 8
         if isEncrypt then
           if data_buf_size &&& 7 ≠ 0 then .error .assertFailed
           else
             match B.wrapE kek data with
             | .error e => .error e
             | .ok w =>
               .ok (canonMpi (((data_buf_size + 8) % 256)
                 :: w.take ((data_buf_size + 8) % 256)))
         else
           if data_buf_size &&& 7 ≠ 1 then .error .assertFailed
           else if data.length ≠ data_buf_size
               ∨ data.getD 0 0 ≠ data_buf_size - 1 then .error .badMpi
           else
             match B.unwrapE kek (data.drop 1) with
             | .error e => .error e
             | .ok p => .ok (canonMpi (p.take (data.getD 0 0 - 8)))) := by
  have hids := decodeKek_ids hdec
  have hmd32 : 32 ≤ mdLen h := by
    rcases hids.1 with h' | h' | h' <;> subst h' <;> decide
  have hck32 : cipherKeylen c ≤ 32 := by
    rcases hids.2 with h' | h' | h' <;> subst h' <;> decide
  unfold pk_ecdh_encrypt_with_shared_point pipelineKek
  dsimp only
  rw [extract_ok _ _ _ hm1 hm2]
  dsimp only
  rw [hdec]
  dsimp only
  rw [if_neg (by omega), if_neg (by omega), if_neg (by omega)]

theorem encrypt_ok (B : WrapBackend) (md : ℕ → List ℕ → List ℕ)
    (sharedMpi fp data pkOid pkPoint pkKek : List ℕ) (qbits h c : ℕ)
    (hm1 : (qbits + 7) / 8 < sharedMpi.length)
    (hm2 : sharedMpi.length ≤ (mpiNbits pkPoint + 7) / 8)
    (hdec : decodeKekParams pkKek = .ok (h, c))
    (hkl : cipherKeylen c ≤ (qbits + 7) / 8)
    (hcd : Canonical data) (hd0 : data.getD 0 0 < 256)
    (hL8 : data.length % 8 = 0) (hL16 : 16 ≤ data.length)
    (hLmax : data.length + 8 < 256) :
    pk_ecdh_encrypt_with_shared_point B md true sharedMpi fp data
        pkOid pkPoint pkKek qbits
      = .ok ((data.length + 8)
          :: B.wrap (pipelineKek md h c sharedMpi ((qbits + 7) / 8)
              pkOid pkKek fp) data) := by
  rw [pipeline_front B md true sharedMpi fp data pkOid pkPoint pkKek
    qbits h c hm1 hm2 hdec hkl]
  dsimp only
  rw [if_pos rfl, mpi_len_of_canonical hcd hd0, and_seven_eq_mod,
    if_neg (by omega), B.wrapE_ok _ _ hL8 hL16]
  dsimp only
  rw [Nat.mod_eq_of_lt hLmax,
    List.take_of_length_le (le_of_eq (B.wrap_len _ _ hL8 hL16)),
    canonMpi_cons_ne _ (by omega)]

theorem decrypt_wrapped (B : WrapBackend) (md : ℕ → List ℕ → List ℕ)
    (sharedMpi fp pkOid pkPoint pkKek : List ℕ) (qbits h c l0 : ℕ)
    (w : List ℕ)
    (hm1 : (qbits + 7) / 8 < sharedMpi.length)
    (hm2 : sharedMpi.length ≤ (mpiNbits pkPoint + 7) / 8)
    (hdec : decodeKekParams pkKek = .ok (h, c))
    (hkl : cipherKeylen c ≤ (qbits + 7) / 8)
    (hl0 : l0 = w.length) (hl0ne : l0 ≠ 0) (hl0lt : l0 < 256)
    (hw8 : w.length % 8 = 0) :
    pk_ecdh_encrypt_with_shared_point B md false sharedMpi fp (l0 :: w)
        pkOid pkPoint pkKek qbits
      = (match B.unwrapE (pipelineKek md h c sharedMpi ((qbits + 7) / 8)
            pkOid pkKek fp) w with
         | .error e => .error e
         | .ok p => .ok (canonMpi (p.take (l0 - 8)))) := by
  rw [pipeline_front B md false sharedMpi fp (l0 :: w) pkOid pkPoint
    pkKek qbits h c hm1 hm2 hdec hkl]
  dsimp only
  rw [if_neg (by simp), mpi_len_div l0 w hl0ne hl0lt, and_seven_eq_mod,
    if_neg (by omega),
    if_neg (by simp only [List.length_cons, List.getD_cons_zero]; omega)]
  simp only [List.drop_succ_cons, List.drop_zero, List.getD_cons_zero]

instance {ε α : Type} [DecidableEq ε] [DecidableEq α] :
    DecidableEq (Except ε α) := fun a b =>
  match a, b with
  | .error e, .error f => decidable_of_iff (e = f) (by simp)
  | .error _, .ok _ => isFalse (fun he => Except.noConfusion he)
  | .ok _, .error _ => isFalse (fun he => Except.noConfusion he)
  | .ok x, .ok y => decidable_of_iff (x = y) (by simp)

/-!
## Concrete inputs used by witnesses and counterexamples

A NIST P-256 style context: 8-octet curve OID, KEK-params MPI `01 08 07`
(serializing to `03 01 08 07`: SHA-256 with AES-128), a 65-octet public
point and shared point (one framing octet plus 64 coordinate octets),
qbits = 256, a 20-octet zero fingerprint. -/

def oid0 : List ℕ := [0x2A, 0x86, 0x48, 0xCE, 0x3D, 0x03, 0x01, 0x07]

def kek0 : List ℕ := [1, 8, 7]

def fp0 : List ℕ := List.replicate 20 0

def point0 : List ℕ := 4 :: List.replicate 64 1

def shared0 : List ℕ := 4 :: List.replicate 64 2

/-- A 24-octet padded session key (16 key octets plus 8 padding). -/
def data24 : List ℕ := 1 :: List.replicate 23 2

/-- A 248-octet padded session key: `L + 8 = 256` overflows the one-octet
length field of the wrapped MPI. -/
def data248 : List ℕ := 1 :: List.replicate 247 2

/-- Decrypt input with length octet `0x10` but total length `0x12`. -/
def badMpi18 : List ℕ := 16 :: List.replicate 17 1

/-- The decrypt input of the amended C6 statement: total length 25
(≡ 1 mod 8) with an inconsistent length octet. -/
def badMpi25 : List ℕ := 16 :: List.replicate 24 3

/-- The secret buffer extracted from `shared0` at qbits = 256. -/
def secretX0 : List ℕ :=
  (shared0.drop 1).take 32 ++ List.replicate 33 0

/-- The expected 54-octet KDF parameter block for the concrete P-256
context (spec section 8, scenario 3, with the KEK-params field occupying
four octets `03 01 08 07` as the code serializes it). -/
def the54Vector : List ℕ :=
  [0x08, 0x2A, 0x86, 0x48, 0xCE, 0x3D, 0x03, 0x01, 0x07, 0x12,
   0x03, 0x01, 0x08, 0x07] ++ anonymousSender ++ List.replicate 20 0

/-!
## Claims
-/

/-- Claim C3: for every qbits, `pk_ecdh_default_params` returns the
4-octet blob `03 01 hash cipher` obtained by walking the three-row table
from the front and taking the first row whose threshold is at least the
caller's qbits, or the last row when none matches; 256 yields
SHA-256/AES-128, 384 yields SHA-384/AES-256, 521 and 1024 yield
SHA-512/AES-256.  `specSelectRow` below is the claim's own wording of the
selection rule. -/
def specSelectRow (qbits : ℕ) : ℕ × ℕ :=
  match kek_params_table.find? (fun r => decide (qbits ≤ r.1)) with
  | some r => (r.2.1, r.2.2)
  | none =>
    match kek_params_table.getLast? with
    | some r => (r.2.1, r.2.2)
    | none => (0, 0)

/-- Claim C3: the default-parameter table walk matches the spec's
first-matching-row-or-last rule, and the four quoted instances hold. -/
theorem claim_C3 :
    (∀ qbits, pk_ecdh_default_params qbits
        = [3, 1, (specSelectRow qbits).1, (specSelectRow qbits).2])
    ∧ pk_ecdh_default_params 256 = [3, 1, 8, 7]
    ∧ pk_ecdh_default_params 384 = [3, 1, 9, 9]
    ∧ pk_ecdh_default_params 521 = [3, 1, 10, 9]
    ∧ pk_ecdh_default_params 1024 = [3, 1, 10, 9] := by
  refine ⟨?_, by decide, by decide, by decide, by decide⟩
  intro q
  unfold pk_ecdh_default_params specSelectRow kek_params_table
  by_cases h1 : q ≤ 256
  · simp [selectKekRow, List.find?, h1]
  · by_cases h2 : q ≤ 384
    · simp [selectKekRow, List.find?, h1, h2]
    · by_cases h3 : q ≤ 528
      · simp [selectKekRow, List.find?, h1, h2, h3]
      · simp [selectKekRow, List.find?, h1, h2, h3]

theorem decodeKekBlob_ok_of (blob : List ℕ) (hok : KekBlobOk blob) :
    decodeKekBlob blob = .ok (blob.getD 2 0, blob.getD 3 0) := by
  obtain ⟨h1, h2, h3, h4, h5⟩ := hok
  unfold decodeKekBlob
  rw [if_neg (by tauto), if_neg (by tauto), if_neg (by tauto)]

theorem decodeKekBlob_err_of (blob : List ℕ) (hok : ¬ KekBlobOk blob) :
    decodeKekBlob blob = .error .badPubkey := by
  unfold KekBlobOk at hok
  unfold decodeKekBlob
  by_cases h1 : blob.length ≠ 4 ∨ blob.getD 0 0 ≠ 3 ∨ blob.getD 1 0 ≠ 1
  · rw [if_pos h1]
  · rw [if_neg h1]
    push_neg at h1
    by_cases h2 : blob.getD 2 0 ≠ 8 ∧ blob.getD 2 0 ≠ 9
        ∧ blob.getD 2 0 ≠ 10
    · rw [if_pos h2]
    · rw [if_neg h2]
      by_cases h3 : blob.getD 3 0 ≠ 7 ∧ blob.getD 3 0 ≠ 8
          ∧ blob.getD 3 0 ≠ 9
      · rw [if_pos h3]
      · exfalso
        exact hok ⟨h1.1, h1.2.1, h1.2.2, by tauto, by tauto⟩

/-- Claim C4: decoding a KEK-parameter blob fails with `badPubkey`
exactly when the blob violates the format (length 4, leading `03 01`,
hash in the SHA-2 set, cipher in the AES set); on every valid blob the
decoded ids are octets 2 and 3; the blob `04 01 08 07` is rejected. -/
theorem claim_C4 (blob : List ℕ) :
    (decodeKekBlob blob = .error .badPubkey ↔ ¬ KekBlobOk blob)
    ∧ (KekBlobOk blob → decodeKekBlob blob
        = .ok (blob.getD 2 0, blob.getD 3 0))
    ∧ decodeKekBlob [4, 1, 8, 7] = .error .badPubkey := by
  refine ⟨⟨?_, decodeKekBlob_err_of blob⟩,
    decodeKekBlob_ok_of blob, by decide⟩
  intro herr hok
  rw [decodeKekBlob_ok_of blob hok] at herr
  exact Except.noConfusion herr

/-- Claim C4 witness at a valid blob. -/
theorem claim_C4_witness :
    KekBlobOk [3, 1, 9, 9]
      ∧ decodeKekBlob [3, 1, 9, 9] = .ok (9, 9) :=
  ⟨by decide, (claim_C4 [3, 1, 9, 9]).2.1 (by decide)⟩

/-- Claim C2: the KDF parameter octet string is exactly the length-octet
prefixed OID body, the octet 0x12, the length-octet prefixed KEK-params
body, the 20 octets of the sender constant and the 20 fingerprint octets;
the concrete P-256 context yields the 54-octet vector. -/
theorem claim_C2 (oid kek fp : List ℕ)
    (ho : oid.length < 256) (hk : kek.length < 256)
    (hfp : fp.length = 20)
    (htot : 43 + oid.length + kek.length ≤ 256) :
    buildKdfParams oid kek fp
      = (oid.length :: oid) ++ [18] ++ (kek.length :: kek)
        ++ anonymousSender ++ fp
    ∧ buildKdfParams oid0 kek0 fp0 = the54Vector
    ∧ the54Vector.length = 54 := by
  refine ⟨?_, by decide, by decide⟩
  have ha : anonymousSender.length = 20 := rfl
  unfold buildKdfParams sizeBody
  rw [Nat.mod_eq_of_lt ho, Nat.mod_eq_of_lt hk,
    List.take_of_length_le (le_of_eq hfp)]
  apply List.take_of_length_le
  simp [ha, hfp]
  omega

/-- Claim C2 witness at the concrete P-256 context. -/
theorem claim_C2_witness :
    oid0.length < 256 ∧ kek0.length < 256 ∧ fp0.length = 20
      ∧ 43 + oid0.length + kek0.length ≤ 256
      ∧ buildKdfParams oid0 kek0 fp0
          = (oid0.length :: oid0) ++ [18] ++ (kek0.length :: kek0)
            ++ anonymousSender ++ fp0 :=
  ⟨by decide, by decide, by decide, by decide,
   (claim_C2 oid0 kek0 fp0 (by decide) (by decide) (by decide)
     (by decide)).1⟩

/-- Claim C5: for a shared-point MPI of natural size `m` with
`m ≤ bigN` (the export fits) and `m > n`, the extraction succeeds, the
secret consists of serialized octets `[1, 1+n)` (exactly `n` of them) and
every buffer octet past position `n` is zero; if the MPI export does not
fit, the error is propagated as a `CryptoError`. -/
theorem claim_C5 (sharedMpi : List ℕ) (bigN n : ℕ) :
    (sharedMpi.length ≤ bigN → n < sharedMpi.length →
      extractSecretX sharedMpi bigN n
          = .ok ((sharedMpi.drop 1).take n
              ++ List.replicate (sharedMpi.length - n) 0)
        ∧ ((sharedMpi.drop 1).take n).length = n)
    ∧ (bigN < sharedMpi.length →
        extractSecretX sharedMpi bigN n = .error .cryptoErr) := by
  constructor
  · intro h2 h1
    refine ⟨extract_ok sharedMpi bigN n h1 h2, ?_⟩
    rw [List.length_take, List.length_drop]
    omega
  · intro h
    unfold extractSecretX
    rw [if_pos h]

/-- Claim C5 witness at the concrete shared point. -/
theorem claim_C5_witness :
    shared0.length ≤ 65 ∧ 32 < shared0.length
      ∧ extractSecretX shared0 65 32
          = .ok ((shared0.drop 1).take 32
              ++ List.replicate (shared0.length - 32) 0) :=
  ⟨by decide, by decide,
   ((claim_C5 shared0 65 32).1 (by decide) (by decide)).1⟩

/-- Claim C10: `pk_ecdh_decrypt` with an absent encrypted-data MPI
returns `badMpi` at once, for every backend, digest, key material and
shared point, producing no result. -/
theorem claim_C10 (B : WrapBackend) (md : ℕ → List ℕ → List ℕ)
    (sk_fp shared skOid skPoint skKek : List ℕ) (qbits : ℕ) :
    pk_ecdh_decrypt B md sk_fp none shared skOid skPoint skKek qbits
      = .error .badMpi := rfl

/-- Claim C1 (amended): the wrap/unwrap round trip restores the padded
session key byte-for-byte whenever, in addition to the claim's
conditions (length a multiple of 8 and at least 16), the wrapped length
`L + 8` still fits the single length octet (`L + 8 < 256`); both
directions run on identical shared point, curve OID, KEK params and
fingerprint, for any backend satisfying the spec contract. -/
theorem claim_C1_amended (B : WrapBackend) (md : ℕ → List ℕ → List ℕ)
    (sharedMpi fp data pkOid pkPoint pkKek : List ℕ) (qbits h c : ℕ)
    (hm1 : (qbits + 7) / 8 < sharedMpi.length)
    (hm2 : sharedMpi.length ≤ (mpiNbits pkPoint + 7) / 8)
    (hdec : decodeKekParams pkKek = .ok (h, c))
    (hkl : cipherKeylen c ≤ (qbits + 7) / 8)
    (hcd : Canonical data) (hd0 : data.getD 0 0 < 256)
    (hL8 : data.length % 8 = 0) (hL16 : 16 ≤ data.length)
    (hLmax : data.length + 8 < 256) :
    ∃ out,
      pk_ecdh_encrypt_with_shared_point B md true sharedMpi fp data
          pkOid pkPoint pkKek qbits = .ok out
      ∧ pk_ecdh_encrypt_with_shared_point B md false sharedMpi fp out
          pkOid pkPoint pkKek qbits = .ok data := by
  refine ⟨_, encrypt_ok B md sharedMpi fp data pkOid pkPoint pkKek
    qbits h c hm1 hm2 hdec hkl hcd hd0 hL8 hL16 hLmax, ?_⟩
  have hwlen : (B.wrap (pipelineKek md h c sharedMpi ((qbits + 7) / 8)
      pkOid pkKek fp) data).length = data.length + 8 :=
    B.wrap_len _ _ hL8 hL16
  rw [decrypt_wrapped B md sharedMpi fp pkOid pkPoint pkKek qbits h c
    (data.length + 8) _ hm1 hm2 hdec hkl hwlen.symm (by omega) hLmax
    (by omega)]
  rw [B.unwrap_wrap _ _ hL8 hL16]
  dsimp only
  have h8 : data.length + 8 - 8 = data.length := by omega
  rw [h8, List.take_of_length_le (le_refl data.length),
    Canonical.eq hcd]

/-- Claim C1 witness: the round trip at the concrete P-256 context and
the 24-octet padded key, under the concrete backend. -/
theorem claim_C1_witness :
    ∃ out,
      pk_ecdh_encrypt_with_shared_point toyBackend toyMd true shared0 fp0
          data24 oid0 point0 kek0 256 = .ok out
      ∧ pk_ecdh_encrypt_with_shared_point toyBackend toyMd false shared0
          fp0 out oid0 point0 kek0 256 = .ok data24 :=
  claim_C1_amended toyBackend toyMd shared0 fp0 data24 oid0 point0 kek0
    256 8 7 (by decide) (by decide) (by decide) (by decide) (by decide)
    (by decide) (by decide) (by decide) (by decide)

set_option maxRecDepth 40000 in
/-- Claim C1 counterexample: a 248-octet padded session key satisfies
the claim's conditions (a multiple of 8, at least 16 octets), yet the
round trip aborts instead of restoring the key: the wrapped length 256
is stored in the one-octet length field as 0, so the encrypt side emits
an empty MPI and the decrypt side fails its length assertion. -/
theorem claim_C1_counterexample :
    data248.length % 8 = 0 ∧ 16 ≤ data248.length
    ∧ ((pk_ecdh_encrypt_with_shared_point toyBackend toyMd true shared0
          fp0 data248 oid0 point0 kek0 256).bind
        (fun out => pk_ecdh_encrypt_with_shared_point toyBackend toyMd
          false shared0 fp0 out oid0 point0 kek0 256))
        = .error .assertFailed
    ∧ (.error .assertFailed : Except EcdhErr (List ℕ)) ≠ .ok data248 := by
  refine ⟨by decide, by decide, by decide, by decide⟩

/-- Claim C6 (amended): on decryption, the only check rewarded with
`badMpi` is the length-octet consistency check `data_buf[0] ==
data_buf_size - 1`, and it is reached only for inputs whose total octet
size is congruent 1 modulo 8; an input failing that congruence (such as
the claim's length-octet 0x10 with total size 0x12) aborts in the
`assert ((data_buf_size & 7) == 1)` instead.  The claimed `len >= 24`
bound is not checked by this code at all (it is left to the AESWRAP
backend). -/
theorem claim_C6_amended (B : WrapBackend) (md : ℕ → List ℕ → List ℕ)
    (sharedMpi fp data pkOid pkPoint pkKek : List ℕ) (qbits h c : ℕ)
    (hm1 : (qbits + 7) / 8 < sharedMpi.length)
    (hm2 : sharedMpi.length ≤ (mpiNbits pkPoint + 7) / 8)
    (hdec : decodeKekParams pkKek = .ok (h, c))
    (hkl : cipherKeylen c ≤ (qbits + 7) / 8)
    (hcd : Canonical data) (hd0 : data.getD 0 0 < 256) :
    (data.length % 8 ≠ 1 →
      pk_ecdh_encrypt_with_shared_point B md false sharedMpi fp data
          pkOid pkPoint pkKek qbits = .error .assertFailed)
    ∧ (data.length % 8 = 1 → data.getD 0 0 ≠ data.length - 1 →
      pk_ecdh_encrypt_with_shared_point B md false sharedMpi fp data
          pkOid pkPoint pkKek qbits = .error .badMpi) := by
  constructor
  · intro hmod
    rw [pipeline_front B md false sharedMpi fp data pkOid pkPoint pkKek
      qbits h c hm1 hm2 hdec hkl]
    dsimp only
    rw [if_neg (by simp), mpi_len_of_canonical hcd hd0,
      and_seven_eq_mod, if_pos (by omega)]
  · intro hmod hne
    rw [pipeline_front B md false sharedMpi fp data pkOid pkPoint pkKek
      qbits h c hm1 hm2 hdec hkl]
    dsimp only
    rw [if_neg (by simp), mpi_len_of_canonical hcd hd0,
      and_seven_eq_mod, if_neg (by omega), if_pos (Or.inr hne)]

/-- Claim C6 witness: a 25-octet decrypt input with an inconsistent
length octet is rejected with `badMpi` before any unwrap. -/
theorem claim_C6_witness :
    pk_ecdh_encrypt_with_shared_point toyBackend toyMd false shared0 fp0
        badMpi25 oid0 point0 kek0 256 = .error .badMpi :=
  (claim_C6_amended toyBackend toyMd shared0 fp0 badMpi25 oid0 point0
    kek0 256 8 7 (by decide) (by decide) (by decide) (by decide)
    (by decide) (by decide)).2 (by decide) (by decide)

/-- Claim C6 counterexample: the claim's own instance — length octet
0x10, total size 0x12 — is not rejected with `badMpi`; it aborts in the
assertion on the total size, which 0x12 fails (0x12 mod 8 = 2). -/
theorem claim_C6_counterexample :
    badMpi18.getD 0 0 = 0x10 ∧ badMpi18.length = 0x12
    ∧ pk_ecdh_encrypt_with_shared_point toyBackend toyMd false shared0
        fp0 badMpi18 oid0 point0 kek0 256 = .error .assertFailed
    ∧ EcdhErr.assertFailed ≠ EcdhErr.badMpi := by
  refine ⟨by decide, by decide, by decide, by decide⟩

/-- Claim C7: flipping any single bit of the wrapped octets of a validly
produced wrap makes the decryption return `badKey` (the backend's
integrity failure, propagated unchanged by the core). -/
theorem claim_C7 (B : WrapBackend) (md : ℕ → List ℕ → List ℕ)
    (sharedMpi fp data pkOid pkPoint pkKek : List ℕ) (qbits h c i : ℕ)
    (hm1 : (qbits + 7) / 8 < sharedMpi.length)
    (hm2 : sharedMpi.length ≤ (mpiNbits pkPoint + 7) / 8)
    (hdec : decodeKekParams pkKek = .ok (h, c))
    (hkl : cipherKeylen c ≤ (qbits + 7) / 8)
    (hcd : Canonical data) (hd0 : data.getD 0 0 < 256)
    (hL8 : data.length % 8 = 0) (hL16 : 16 ≤ data.length)
    (hLmax : data.length + 8 < 256)
    (hi : i < 8 * (data.length + 8)) :
    ∃ w,
      pk_ecdh_encrypt_with_shared_point B md true sharedMpi fp data
          pkOid pkPoint pkKek qbits = .ok ((data.length + 8) :: w)
      ∧ pk_ecdh_encrypt_with_shared_point B md false sharedMpi fp
          ((data.length + 8) :: flipBit i w) pkOid pkPoint pkKek qbits
          = .error .badKey := by
  refine ⟨_, encrypt_ok B md sharedMpi fp data pkOid pkPoint pkKek
    qbits h c hm1 hm2 hdec hkl hcd hd0 hL8 hL16 hLmax, ?_⟩
  have hwlen : (B.wrap (pipelineKek md h c sharedMpi ((qbits + 7) / 8)
      pkOid pkKek fp) data).length = data.length + 8 :=
    B.wrap_len _ _ hL8 hL16
  have hflen : (flipBit i (B.wrap (pipelineKek md h c sharedMpi
      ((qbits + 7) / 8) pkOid pkKek fp) data)).length
      = data.length + 8 := by
    unfold flipBit
    rw [List.length_set, hwlen]
  rw [decrypt_wrapped B md sharedMpi fp pkOid pkPoint pkKek qbits h c
    (data.length + 8) _ hm1 hm2 hdec hkl hflen.symm (by omega) hLmax
    (by omega)]
  rw [B.unwrap_tamper _ _ i hL8 hL16 hi]

/-- Claim C7 witness: tamper detection at the concrete context, flipping
bit 70 (an octet of the wrapped payload). -/
theorem claim_C7_witness :
    ∃ w,
      pk_ecdh_encrypt_with_shared_point toyBackend toyMd true shared0 fp0
          data24 oid0 point0 kek0 256 = .ok ((data24.length + 8) :: w)
      ∧ pk_ecdh_encrypt_with_shared_point toyBackend toyMd false shared0
          fp0 ((data24.length + 8) :: flipBit 70 w) oid0 point0 kek0 256
          = .error .badKey :=
  claim_C7 toyBackend toyMd shared0 fp0 data24 oid0 point0 kek0 256 8 7
    70 (by decide) (by decide) (by decide) (by decide) (by decide)
    (by decide) (by decide) (by decide) (by decide) (by decide)

/-- Claim C8 (amended): the wrap result is the MPI whose octets are the
single length octet `L + 8` followed by the `L + 8` wrap octets, and its
bit length is `8 * (L + 8) + size (L + 8)` — the exact significant-bit
count, which equals the claim's `8 + 8 * (L + 8)` only when the leading
octet `L + 8` has all eight bits (`L + 8 ≥ 128`); the wrapped length
must also fit the length octet (`L + 8 < 256`). -/
theorem claim_C8_amended (B : WrapBackend) (md : ℕ → List ℕ → List ℕ)
    (sharedMpi fp data pkOid pkPoint pkKek : List ℕ) (qbits h c : ℕ)
    (hm1 : (qbits + 7) / 8 < sharedMpi.length)
    (hm2 : sharedMpi.length ≤ (mpiNbits pkPoint + 7) / 8)
    (hdec : decodeKekParams pkKek = .ok (h, c))
    (hkl : cipherKeylen c ≤ (qbits + 7) / 8)
    (hcd : Canonical data) (hd0 : data.getD 0 0 < 256)
    (hL8 : data.length % 8 = 0) (hL16 : 16 ≤ data.length)
    (hLmax : data.length + 8 < 256) :
    ∃ w,
      pk_ecdh_encrypt_with_shared_point B md true sharedMpi fp data
          pkOid pkPoint pkKek qbits = .ok ((data.length + 8) :: w)
      ∧ w.length = data.length + 8
      ∧ mpiNbits ((data.length + 8) :: w)
          = 8 * (data.length + 8) + bitLen (data.length + 8) := by
  refine ⟨_, encrypt_ok B md sharedMpi fp data pkOid pkPoint pkKek
    qbits h c hm1 hm2 hdec hkl hcd hd0 hL8 hL16 hLmax,
    B.wrap_len _ _ hL8 hL16, ?_⟩
  simp only [mpiNbits]
  rw [B.wrap_len _ _ hL8 hL16]

/-- Claim C8 witness at the concrete context. -/
theorem claim_C8_witness :
    ∃ w,
      pk_ecdh_encrypt_with_shared_point toyBackend toyMd true shared0 fp0
          data24 oid0 point0 kek0 256 = .ok ((data24.length + 8) :: w)
      ∧ w.length = data24.length + 8
      ∧ mpiNbits ((data24.length + 8) :: w)
          = 8 * (data24.length + 8) + bitLen (data24.length + 8) :=
  claim_C8_amended toyBackend toyMd shared0 fp0 data24 oid0 point0 kek0
    256 8 7 (by decide) (by decide) (by decide) (by decide) (by decide)
    (by decide) (by decide) (by decide) (by decide)

/-- Claim C8 counterexample: for the claim's own 24-octet padded key the
wrapped MPI has 262 significant bits, not `8 + 8 * (24 + 8) = 264`; the
leading octet 32 contributes only 6 bits. -/
theorem claim_C8_counterexample :
    (pk_ecdh_encrypt_with_shared_point toyBackend toyMd true shared0 fp0
        data24 oid0 point0 kek0 256).map mpiNbits = .ok 262
    ∧ data24.length = 24
    ∧ (262 : ℕ) ≠ 8 + 8 * (24 + 8) := by
  refine ⟨by decide, by decide, by decide⟩

/-- Claim C9 (code bug): after the KDF step the secret buffer does hold
the KEK as the first `k = 16` digest octets, but the octets past
position `k` are not zero: the `memset (secret_x+secret_x_size,
old_size-secret_x_size, 0)` of ecdh.c line 236 has its value and size
arguments swapped and writes zero octets, leaving the digest tail in
place (octet 16 of the buffer holds digest octet 16, here 107). -/
theorem claim_C9_bug :
    extractSecretX shared0 65 32 = .ok secretX0
    ∧ cipherKeylen 7 = 16
    ∧ (deriveKekBuffer toyMd 8 secretX0 32
        (buildKdfParams oid0 kek0 fp0)).take 16
        = (toyMd 8 ([0, 0, 0, 1] ++ secretX0.take 32
            ++ buildKdfParams oid0 kek0 fp0)).take 16
    ∧ (deriveKekBuffer toyMd 8 secretX0 32
        (buildKdfParams oid0 kek0 fp0)).getD 16 0 = 107
    ∧ (107 : ℕ) ≠ 0 := by
  refine ⟨by decide, by decide, by decide, by decide, by decide⟩
